import Mathlib

/-!
Shallow embedding of the `loadgen` service (files `src/loadgen/src/loadgen/generator.py`,
`src/loadgen/src/loadgen/main.py`, and the migration definitions under
`src/loadgen/migrations/`).

Modelling conventions:
* The SQL database a generator talks to is modelled as an explicit `DB` value
  holding the three tables created by migration `0001_initial_schema`
  (`Customers`, `Orders`, `OrderItems`); `IDENTITY(1,1)` columns are modelled by
  the `next…Id` counters.
* The Python global `random` module and the `faker` instance are modelled by a
  `RandStream`: an infinite supply of natural numbers and of strings; each call
  site consumes a fixed position of the stream.  `random.randint(lo, hi)` on a
  stream value `n` is `lo + n % (hi - lo + 1)`, which ranges exactly over
  `[lo, hi]`.  Monetary values (`round(random.uniform(lo, hi), 2)`) are held in
  cents, so `random.uniform(5.0, 100.0)` becomes a cent amount in `[500, 10000]`.
* `SELECT TOP 1 … ORDER BY NEWID()` (a uniformly random eligible row) is
  `pickRow rows n = rows[n % rows.length]?` — `none` exactly when no eligible
  row exists.
* `structlog` calls are modelled as `Event` values returned alongside the new
  database state; driver failures (`pyodbc.Error`) are injected through an
  explicit `OpOutcome` parameter.
-/

namespace Loadgen

/-- Log levels used by the `structlog` calls in the generator
(`log.info`, `log.warning`). -/
inductive LogLevel
  | info
  | warning
deriving DecidableEq, Repr

/-- One structured log record: level, event name, `database=` field, and the
optional `operation=` / `error=` fields used by the `operation_failed` warning
in `execute_random_operation`. -/
structure Event where
  level : LogLevel
  name : String
  database : String
  operation : Option String
  error : Option String
deriving DecidableEq, Repr

/-- The five workload operations of `LoadGenerator` (generator.py lines 53-59). -/
inductive OpName
  | insert_customer_with_order
  | update_order_status
  | insert_order_for_existing
  | update_customer
  | delete_order_item
deriving DecidableEq, BEq, Repr

/-- Python `operation.__name__`, as logged by the `operation_failed` warning. -/
def OpName.pyName : OpName → String
  | .insert_customer_with_order => "insert_customer_with_order"
  | .update_order_status => "update_order_status"
  | .insert_order_for_existing => "insert_order_for_existing"
  | .update_customer => "update_customer"
  | .delete_order_item => "delete_order_item"

/-- The weighted operation table of `execute_random_operation`
(generator.py lines 53-59). -/
def operations : List (OpName × Nat) :=
  [(OpName.insert_customer_with_order, 40),
   (OpName.update_order_status, 30),
   (OpName.insert_order_for_existing, 15),
   (OpName.update_customer, 10),
   (OpName.delete_order_item, 5)]

/-- `total_weight = sum(w for _, w in operations)` (generator.py line 61). -/
def total_weight : Nat := (operations.map (fun ow => ow.2)).sum

/-- The cumulative scan of `execute_random_operation` (generator.py lines 64-78):
walk the weighted list accumulating weights and return the first operation whose
cumulative weight reaches `choice`. -/
def selectLoop (choice : Nat) : Nat → List (OpName × Nat) → Option OpName
  | _, [] => none
  | cumulative, (op, weight) :: rest =>
      if choice ≤ cumulative + weight then some op
      else selectLoop choice (cumulative + weight) rest

/-- The operation selected for a draw `choice = random.randint(1, total_weight)`. -/
def selectOp (choice : Nat) : Option OpName := selectLoop choice 0 operations

/-- How many of the draws `1, …, total_weight` select the given operation. -/
def drawCount (op : OpName) : Nat :=
  ((List.range total_weight).filter (fun i => selectOp (i + 1) == some op)).length

/-- A customer row of `dbo.Customers` (migration 0001); timestamps are abstract
`Nat` instants. -/
structure Customer where
  customerId : Nat
  firstName : String
  lastName : String
  email : String
  createdAt : Nat
  modifiedAt : Nat
deriving DecidableEq, Repr

/-- An order row of `dbo.Orders` (migration 0001); `Status` is kept as the raw
string the code stores, `TotalAmount` in cents. -/
structure Order where
  orderId : Nat
  customerId : Nat
  orderDate : Nat
  totalAmountCents : Nat
  status : String
deriving DecidableEq, Repr

/-- An order item row of `dbo.OrderItems` (migration 0001); `UnitPrice` in cents. -/
structure OrderItem where
  orderItemId : Nat
  orderId : Nat
  productName : String
  quantity : Nat
  unitPriceCents : Nat
deriving DecidableEq, Repr

/-- A database state: the three tables plus the `IDENTITY(1,1)` counters. -/
structure DB where
  customers : List Customer
  orders : List Order
  orderItems : List OrderItem
  nextCustomerId : Nat
  nextOrderId : Nat
  nextOrderItemId : Nat
deriving DecidableEq, Repr

/-- A source of randomness: `nat i` models the `i`-th numeric draw from the
global `random` module inside one operation, `str i` the `i`-th fake string
(`fake.first_name()`, `fake.email()`, `fake.word()`, …). -/
structure RandStream where
  nat : Nat → Nat
  str : Nat → String

/-- Model of `random.randint(lo, hi)` driven by a stream value `n`: the result
always lies in `[lo, hi]` (for `lo ≤ hi`), and every value of the interval is
attained as `n` varies. -/
def randint (lo hi n : Nat) : Nat := lo + n % (hi - lo + 1)

/-- Model of `SELECT TOP 1 … ORDER BY NEWID()` over a list of eligible rows:
a uniformly random row when one exists, `none` when the list is empty
(`cursor.fetchone()` returning no row). -/
def pickRow {α : Type} (rows : List α) (n : Nat) : Option α :=
  rows[n % rows.length]?

/-- The three initial statuses `random.choice(["Pending", "Processing", "Shipped"])`
draws from (generator.py line 101). -/
def statusChoices : List String := ["Pending", "Processing", "Shipped"]

/-- The `status_progression` dictionary of `update_order_status`
(generator.py lines 205-210), including the `.get(current_status, "Completed")`
default for any unknown status value. -/
def status_progression (s : String) : String :=
  if s = "Pending" then "Processing"
  else if s = "Processing" then "Shipped"
  else if s = "Shipped" then "Completed"
  else "Completed"

/-- Position of a status along the progression Pending → Processing → Shipped →
Completed; unknown statuses sit at the terminal position. -/
def statusIdx (s : String) : Nat :=
  if s = "Pending" then 0
  else if s = "Processing" then 1
  else if s = "Shipped" then 2
  else 3

end Loadgen

namespace Loadgen

/-- `insert_customer_with_order` (generator.py lines 80-134): insert one
customer (fake name/email), one order for that customer (random total,
random initial status among the three `statusChoices`), and 1-3 order items
(fake product string, quantity 1-5, unit price 5.00-100.00). -/
def insert_customer_with_order (dbName : String) (now : Nat) (r : RandStream)
    (db : DB) : DB × List Event :=
  let first_name := r.str 0
  let last_name := r.str 1
  let email := r.str 2
  let customer_id := db.nextCustomerId
  let db1 : DB := { db with
    customers := db.customers ++
      [{ customerId := customer_id, firstName := first_name, lastName := last_name,
         email := email, createdAt := now, modifiedAt := now }],
    nextCustomerId := customer_id + 1 }
  let total_amount := randint 1000 50000 (r.nat 0)
  let status := statusChoices.getD (r.nat 1 % statusChoices.length) "Pending"
  let order_id := db1.nextOrderId
  let db2 : DB := { db1 with
    orders := db1.orders ++
      [{ orderId := order_id, customerId := customer_id, orderDate := now,
         totalAmountCents := total_amount, status := status }],
    nextOrderId := order_id + 1 }
  let num_items := randint 1 3 (r.nat 2)
  let newItems := (List.range num_items).map (fun i =>
    { orderItemId := db2.nextOrderItemId + i, orderId := order_id,
      productName := r.str (3 + 2 * i) ++ " " ++ r.str (4 + 2 * i),
      quantity := randint 1 5 (r.nat (3 + 2 * i)),
      unitPriceCents := randint 500 10000 (r.nat (4 + 2 * i)) : OrderItem })
  let db3 : DB := { db2 with
    orderItems := db2.orderItems ++ newItems,
    nextOrderItemId := db2.nextOrderItemId + num_items }
  (db3, [⟨LogLevel.info, "inserted_customer_with_order", dbName, none, none⟩])

/-- `insert_order_for_existing` (generator.py lines 136-183): pick a random
existing customer; if none exists fall back to `insert_customer_with_order`;
otherwise insert one order with status `"Pending"` and 1-2 items
(quantity 1-3, unit price 5.00-50.00). -/
def insert_order_for_existing (dbName : String) (now : Nat) (r : RandStream)
    (db : DB) : DB × List Event :=
  match pickRow db.customers (r.nat 0) with
  | none => insert_customer_with_order dbName now r db
  | some cust =>
      let total_amount := randint 1000 50000 (r.nat 1)
      let status := "Pending"
      let order_id := db.nextOrderId
      let db1 : DB := { db with
        orders := db.orders ++
          [{ orderId := order_id, customerId := cust.customerId, orderDate := now,
             totalAmountCents := total_amount, status := status }],
        nextOrderId := order_id + 1 }
      let num_items := randint 1 2 (r.nat 2)
      let newItems := (List.range num_items).map (fun i =>
        { orderItemId := db1.nextOrderItemId + i, orderId := order_id,
          productName := r.str (1 + 2 * i) ++ " " ++ r.str (2 + 2 * i),
          quantity := randint 1 3 (r.nat (3 + 2 * i)),
          unitPriceCents := randint 500 5000 (r.nat (4 + 2 * i)) : OrderItem })
      let db2 : DB := { db1 with
        orderItems := db1.orderItems ++ newItems,
        nextOrderItemId := db1.nextOrderItemId + num_items }
      (db2, [⟨LogLevel.info, "inserted_order_for_existing", dbName, none, none⟩])

/-- Eligible rows of the `update_order_status` query:
`SELECT … FROM dbo.Orders WHERE Status != Completed`. -/
def eligibleOrders (db : DB) : List Order :=
  db.orders.filter (fun o => o.status != "Completed")

/-- `update_order_status` (generator.py lines 185-223): pick a random
non-Completed order (silent skip when none exists) and advance its status one
step along `status_progression`. -/
def update_order_status (dbName : String) (r : RandStream) (db : DB) :
    DB × List Event :=
  match pickRow (eligibleOrders db) (r.nat 0) with
  | none => (db, [])
  | some row =>
      let new_status := status_progression row.status
      ({ db with orders := db.orders.map (fun o =>
          if o.orderId = row.orderId then { o with status := new_status } else o) },
       [⟨LogLevel.info, "updated_order_status", dbName, none, none⟩])

/-- `update_customer` (generator.py lines 225-250): pick a random customer
(silent skip when none exists), replace its email with a fresh fake one and
touch `ModifiedAt`. -/
def update_customer (dbName : String) (now : Nat) (r : RandStream) (db : DB) :
    DB × List Event :=
  match pickRow db.customers (r.nat 0) with
  | none => (db, [])
  | some row =>
      let new_email := r.str 0
      ({ db with customers := db.customers.map (fun c =>
          if c.customerId = row.customerId then
            { c with email := new_email, modifiedAt := now } else c) },
       [⟨LogLevel.info, "updated_customer", dbName, none, none⟩])

/-- Eligible rows of the `delete_order_item` query: items whose parent order
has status `Pending` or `Processing` (the join in generator.py lines 257-264). -/
def cancelableItems (db : DB) : List OrderItem :=
  db.orderItems.filter (fun it => db.orders.any (fun o =>
    o.orderId == it.orderId && (o.status == "Pending" || o.status == "Processing")))

/-- `delete_order_item` (generator.py lines 252-279): pick a random item of a
Pending/Processing order (silent skip when none exists) and delete it. -/
def delete_order_item (dbName : String) (r : RandStream) (db : DB) :
    DB × List Event :=
  match pickRow (cancelableItems db) (r.nat 0) with
  | none => (db, [])
  | some it =>
      ({ db with orderItems := db.orderItems.filter (fun x =>
          x.orderItemId != it.orderItemId) },
       [⟨LogLevel.info, "deleted_order_item", dbName, none, none⟩])

end Loadgen

namespace Loadgen

/-- One migration definition: its identifier and its `__depends__` set
(the forward/rollback SQL steps are irrelevant to the dependency claims and are
kept only as a step count). -/
structure MigrationDef where
  id : String
  dependsOn : List String
  stepCount : Nat
deriving DecidableEq, Repr

/-- `migrations/0001_initial_schema.py`: `__depends__ = {}`, five steps. -/
def migration_0001 : MigrationDef := ⟨"0001_initial_schema", [], 5⟩

/-- `migrations/0002_row_count_view.py`: `__depends__ = {"0001_initial_schema"}`. -/
def migration_0002 : MigrationDef := ⟨"0002_row_count_view", ["0001_initial_schema"], 1⟩

/-- `migrations/0003_schema_change_log.py`: `__depends__ = {"0002_row_count_view"}`. -/
def migration_0003 : MigrationDef := ⟨"0003_schema_change_log", ["0002_row_count_view"], 2⟩

/-- The shipped collection under `src/loadgen/migrations/`. -/
def migrationCollection : List MigrationDef :=
  [migration_0001, migration_0002, migration_0003]

/-- Dependencies of an identifier within a collection (empty for an unknown id). -/
def dependsIds (coll : List MigrationDef) (id : String) : List String :=
  match coll.find? (fun m => m.id == id) with
  | some m => m.dependsOn
  | none => []

/-- Fueled reachability along dependency edges: does `b` appear among the
(transitive) dependencies of `a` within `fuel` steps? -/
def reachesViaDeps (coll : List MigrationDef) : Nat → String → String → Bool
  | 0, _, _ => false
  | fuel + 1, a, b =>
      (dependsIds coll a).any (fun c => c == b || reachesViaDeps coll fuel c b)

/-- The dependency graph of a collection is acyclic: no migration reaches
itself along dependency edges (fuel `coll.length` covers every simple path). -/
def acyclicB (coll : List MigrationDef) : Bool :=
  coll.all (fun m => !(reachesViaDeps coll coll.length m.id m.id))

/-- Every identifier in every dependency set names a migration of the collection. -/
def depsResolvedB (coll : List MigrationDef) : Bool :=
  coll.all (fun m => m.dependsOn.all (fun d => coll.any (fun m2 => m2.id == d)))

/-- No migration depends on itself. -/
def noSelfDepB (coll : List MigrationDef) : Bool :=
  coll.all (fun m => !(m.dependsOn.any (fun d => d == m.id)))

end Loadgen

namespace Loadgen

/-- State of the lazy connection of one `LoadGenerator`: the current handle
(`self._connection`, `none` when absent) and a counter supplying fresh handle
identities for each `pyodbc.connect` call. -/
structure ConnState where
  conn : Option Nat
  nextHandle : Nat
deriving DecidableEq, Repr

/-- The `connection` property (generator.py lines 29-35): return the current
handle, establishing a fresh one first when none exists. -/
def connection (s : ConnState) : ConnState × Nat :=
  match s.conn with
  | some c => (s, c)
  | none => ({ conn := some s.nextHandle, nextHandle := s.nextHandle + 1 }, s.nextHandle)

/-- `reconnect` (generator.py lines 37-44): close the current handle if any —
any error raised by the close is swallowed (`closeRaises` is ignored), so it
can never mask the failure that triggered the invalidation — and discard it so
the next `connection` access re-establishes from scratch. -/
def reconnect (closeRaises : Bool) (s : ConnState) : ConnState :=
  { s with conn := none }

/-- The non-connection fields of a `LoadGenerator` (generator.py lines 16-27);
delays are kept in milliseconds. -/
structure LoadGenerator where
  connection_string : String
  database_name : String
  min_delay_ms : Nat
  max_delay_ms : Nat
  connState : ConnState
deriving DecidableEq, Repr

/-- Outcome of running the body of the selected operation: either it completes, or
some statement raises `pyodbc.Error` with message `msg`, leaving the server
database in state `dbAfter` (the failure point is unspecified) and with
`closeRaises` saying whether the subsequent best-effort close also fails. -/
inductive OpOutcome
  | ok
  | pyodbcError (msg : String) (closeRaises : Bool) (dbAfter : DB)
deriving Repr

/-- Dispatch one selected operation against the database. -/
def runOperation (op : OpName) (dbName : String) (now : Nat) (r : RandStream)
    (db : DB) : DB × List Event :=
  match op with
  | .insert_customer_with_order => insert_customer_with_order dbName now r db
  | .update_order_status => update_order_status dbName r db
  | .insert_order_for_existing => insert_order_for_existing dbName now r db
  | .update_customer => update_customer dbName now r db
  | .delete_order_item => delete_order_item dbName r db

/-- `execute_random_operation` (generator.py lines 50-78): select the operation
for the draw `choice`, run it, and catch any `pyodbc.Error` at this boundary —
logging an `operation_failed` warning carrying the operation name and the
database identifier, and invalidating the connection via `reconnect` — instead
of letting it propagate. -/
def execute_random_operation (g : LoadGenerator) (db : DB) (choice : Nat)
    (now : Nat) (r : RandStream) (outcome : OpOutcome) :
    LoadGenerator × DB × List Event :=
  match selectOp choice with
  | none => (g, db, [])
  | some op =>
      match outcome with
      | .ok =>
          let res := runOperation op g.database_name now r db
          (g, res.1, res.2)
      | .pyodbcError msg closeRaises dbAfter =>
          ({ g with connState := reconnect closeRaises g.connState }, dbAfter,
           [⟨LogLevel.warning, "operation_failed", g.database_name,
             some op.pyName, some msg⟩])

/-- Inputs consumed by one iteration of the generator loop: the weighted draw,
the clock instant, the random stream and the injected driver outcome. -/
structure IterInput where
  choice : Nat
  now : Nat
  rand : RandStream
  outcome : OpOutcome

/-- A finite run of the `while True` loop of main.py (lines 160-163) for one
generator: each scheduled iteration executes `execute_random_operation`; the
returned counter is the number of iterations that completed. -/
def crudIterations : LoadGenerator → DB → List IterInput → LoadGenerator × DB × Nat
  | g, _db, [] => (g, _db, 0)
  | g, db, inp :: rest =>
      let step := execute_random_operation g db inp.choice inp.now inp.rand inp.outcome
      let tail := crudIterations step.1 step.2.1 rest
      (tail.1, tail.2.1, tail.2.2 + 1)

/-- The events emitted by `main` (main.py), abstracted to the phase structure:
migration-phase events, generator construction, the crud loop, and the two loop
endings. -/
inductive MainEvent
  | running_migrations (db : String)
  | migrations_complete (db : String)
  | migration_failed (db : String) (err : String)
  | generators_created (count : Nat)
  | starting_crud_loop
  | workload_op (db : String)
  | shutdown_requested
  | fatal_error (err : String)
deriving DecidableEq, Repr

/-- Migration-phase events (emitted by `run_migrations`). -/
def MainEvent.isMigrationPhase : MainEvent → Bool
  | .running_migrations _ => true
  | .migrations_complete _ => true
  | .migration_failed _ _ => true
  | _ => false

/-- Workload-phase events: generator construction and everything the crud loop
does. -/
def MainEvent.isWorkloadPhase : MainEvent → Bool
  | .generators_created _ => true
  | .starting_crud_loop => true
  | .workload_op _ => true
  | _ => false

/-- A workload operation execution. -/
def MainEvent.isWorkloadOp : MainEvent → Bool
  | .workload_op _ => true
  | _ => false

/-- `run_migrations` (main.py lines 69-83): apply migrations to each configured
database in order; a failure is logged and re-raised, stopping the walk.
`applyMig` models the yoyo backend work for one database. -/
def run_migrations : List String → (String → Except String Unit) →
    List MainEvent × Except String Unit
  | [], _ => ([], Except.ok ())
  | db :: rest, applyMig =>
      match applyMig db with
      | Except.ok _ =>
          let tail := run_migrations rest applyMig
          (MainEvent.running_migrations db :: MainEvent.migrations_complete db :: tail.1,
           tail.2)
      | Except.error e =>
          ([MainEvent.running_migrations db, MainEvent.migration_failed db e],
           Except.error e)

/-- Events of `iters` sweeps of the crud loop: one workload operation per
configured database per sweep (main.py lines 160-163). -/
def crudLoopEvents (databases : List String) (iters : Nat) : List MainEvent :=
  (List.range iters).flatMap (fun _ => databases.map (fun db => MainEvent.workload_op db))

/-- Did `run_migrations` succeed? -/
def migOkB : Except String Unit → Bool
  | Except.ok _ => true
  | Except.error _ => false

/-- `main` (main.py lines 86-169) with process exit semantics
(`sys.exit(main())`, an exception escaping `main` exiting with status 1):
run the migrations first; on failure the exception propagates and the process
exits 1 before any generator exists; on success construct the generators, run
the crud loop, and exit 0 on `KeyboardInterrupt` or 1 on a fatal error. -/
def mainRun (databases : List String) (applyMig : String → Except String Unit)
    (iters : Nat) (interrupted : Bool) : List MainEvent × Nat :=
  match run_migrations databases applyMig with
  | (migEvs, Except.error _) => (migEvs, 1)
  | (migEvs, Except.ok _) =>
      (migEvs ++ [MainEvent.generators_created databases.length,
                  MainEvent.starting_crud_loop] ++
        crudLoopEvents databases iters ++
        [if interrupted then MainEvent.shutdown_requested
         else MainEvent.fatal_error "unhandled"],
       if interrupted then 0 else 1)

/-- Once a workload-phase event has occurred, no migration-phase event may
follow: scans the event list left to right. -/
def phaseOrdered (seenWorkload : Bool) : List MainEvent → Bool
  | [] => true
  | e :: rest =>
      if e.isMigrationPhase && seenWorkload then false
      else phaseOrdered (seenWorkload || e.isWorkloadPhase) rest

/-- Contract of the connection accessor pair (generator.py lines 29-44):
first access creates a handle and subsequent accesses return the same one;
`reconnect` behaves identically whether or not the close raises (close errors
are swallowed), discards the handle, and the following access establishes a
fresh handle different from the discarded one. -/
def connectionContract (s : ConnState) : Prop :=
  connection (connection s).1 = ((connection s).1, (connection s).2) ∧
  (∀ b1 b2 : Bool, reconnect b1 (connection s).1 = reconnect b2 (connection s).1) ∧
  (∀ b : Bool, (reconnect b (connection s).1).conn = none) ∧
  (∀ b : Bool, (connection (reconnect b (connection s).1)).2 ≠ (connection s).2)

/-- What the scheduler boundary does with a `pyodbc.Error` raised inside the
selected operation (generator.py lines 68-78): the call returns normally with
exactly one `operation_failed` warning carrying the operation name and the
database identifier, the connection is invalidated, and a loop run beginning
with this failing iteration still completes every scheduled iteration. -/
def opFailureHandled (g : LoadGenerator) (db : DB) (choice now : Nat)
    (r : RandStream) (msg : String) (b : Bool) (dbAfter : DB) (op : OpName) : Prop :=
  execute_random_operation g db choice now r (OpOutcome.pyodbcError msg b dbAfter) =
    ({ g with connState := reconnect b g.connState }, dbAfter,
     [⟨LogLevel.warning, "operation_failed", g.database_name,
       some op.pyName, some msg⟩]) ∧
  (reconnect b g.connState).conn = none ∧
  (∀ inputs : List IterInput,
    (crudIterations g db
      (⟨choice, now, r, OpOutcome.pyodbcError msg b dbAfter⟩ :: inputs)).2.2 =
      inputs.length + 1)

/-- Effect of one successful `insert_customer_with_order` run on a database
state: exactly one new customer row, exactly one new order row referencing it
with an initial status from `statusChoices`, and 1-3 new order item rows
referencing that order with quantity 1-5 and unit price 5.00-100.00. -/
def insertCustomerPost (db db2 : DB) : Prop :=
  ∃ c o items,
    db2.customers = db.customers ++ [c] ∧
    db2.orders = db.orders ++ [o] ∧
    db2.orderItems = db.orderItems ++ items ∧
    o.customerId = c.customerId ∧
    o.status ∈ statusChoices ∧
    1 ≤ items.length ∧ items.length ≤ 3 ∧
    ∀ it ∈ items, it.orderId = o.orderId ∧
      1 ≤ it.quantity ∧ it.quantity ≤ 5 ∧
      500 ≤ it.unitPriceCents ∧ it.unitPriceCents ≤ 10000

/-- Effect of one `insert_order_for_existing` run: with no customers it is
exactly the `insert_customer_with_order` fallback; with at least one customer
it inserts one Pending order for an existing customer plus 1-2 items
(quantity 1-3, unit price 5.00-50.00); in both cases every inserted order
references a customer present in the resulting state. -/
def addOrderPost (dbName : String) (now : Nat) (r : RandStream) (db : DB) : Prop :=
  (db.customers = [] →
     insert_order_for_existing dbName now r db =
       insert_customer_with_order dbName now r db) ∧
  (db.customers ≠ [] →
     ∃ cust o items,
       cust ∈ db.customers ∧
       (insert_order_for_existing dbName now r db).1.customers = db.customers ∧
       (insert_order_for_existing dbName now r db).1.orders = db.orders ++ [o] ∧
       (insert_order_for_existing dbName now r db).1.orderItems =
         db.orderItems ++ items ∧
       o.customerId = cust.customerId ∧ o.status = "Pending" ∧
       1 ≤ items.length ∧ items.length ≤ 2 ∧
       ∀ it ∈ items, it.orderId = o.orderId ∧
         1 ≤ it.quantity ∧ it.quantity ≤ 3 ∧
         500 ≤ it.unitPriceCents ∧ it.unitPriceCents ≤ 5000) ∧
  (∀ o ∈ (insert_order_for_existing dbName now r db).1.orders,
     o ∉ db.orders →
       ∃ c ∈ (insert_order_for_existing dbName now r db).1.customers,
         o.customerId = c.customerId)

/-- A fixed random stream used to instantiate theorems at concrete inputs. -/
def sampleRand : RandStream := ⟨fun _ => 0, fun _ => "w"⟩

/-- The freshly migrated empty database (identity counters start at 1). -/
def emptyDB : DB := ⟨[], [], [], 1, 1, 1⟩

/-- A concrete generator for one tenant database. -/
def sampleGen : LoadGenerator :=
  ⟨"Driver=sample;Database=tenant_db_alpha", "tenant_db_alpha", 1000, 5000, ⟨none, 0⟩⟩

end Loadgen

namespace Loadgen

/-- C1: `execute_random_operation` draws `choice = random.randint(1, total_weight)`
over the fixed table `operations` with weights 40/30/15/10/5.  The weights sum
to 100, the cumulative scan selects an operation (necessarily exactly one,
since `selectOp` is a function) for every draw value in `1..100`, and the
number of draw values selecting each operation equals its weight, so a uniform
draw hits each operation with probability weight/100 — uniform over the weight
mass, not over the five names. -/
theorem weighted_operation_choice_spec :
    total_weight = 100 ∧
    ((List.range total_weight).all (fun i => (selectOp (i + 1)).isSome)) = true ∧
    drawCount OpName.insert_customer_with_order = 40 ∧
    drawCount OpName.update_order_status = 30 ∧
    drawCount OpName.insert_order_for_existing = 15 ∧
    drawCount OpName.update_customer = 10 ∧
    drawCount OpName.delete_order_item = 5 := by
  decide

/-- C9: the shipped migration collection satisfies the configuration
invariant: every dependency identifier resolves to a migration of the
collection, no migration depends on itself, and the dependency graph is
acyclic. -/
theorem migration_collection_invariant_spec :
    depsResolvedB migrationCollection = true ∧
    noSelfDepB migrationCollection = true ∧
    acyclicB migrationCollection = true := by
  decide

/-- `random.randint(lo, hi)` never returns below `lo`. -/
theorem randint_lo (lo hi n : Nat) : lo ≤ randint lo hi n := Nat.le_add_right lo _

/-- `random.randint(lo, hi)` never returns above `hi` (for `lo ≤ hi`). -/
theorem randint_hi (lo hi n : Nat) (h : lo ≤ hi) : randint lo hi n ≤ hi := by
  have hm : n % (hi - lo + 1) < hi - lo + 1 := Nat.mod_lt _ (by omega)
  unfold randint
  omega

/-- A row returned by the random-row query belongs to the eligible set. -/
theorem pickRow_mem {α : Type} {rows : List α} {n : Nat} {a : α}
    (h : pickRow rows n = some a) : a ∈ rows := by
  unfold pickRow at h
  obtain ⟨hlt, rfl⟩ := List.getElem?_eq_some_iff.mp h
  exact List.getElem_mem hlt

/-- The random-row query returns a row whenever the eligible set is nonempty. -/
theorem pickRow_some {α : Type} (rows : List α) (n : Nat) (h : rows ≠ []) :
    ∃ a, pickRow rows n = some a ∧ a ∈ rows := by
  have hlen : 0 < rows.length := List.length_pos.mpr h
  have hm : n % rows.length < rows.length := Nat.mod_lt _ hlen
  exact ⟨rows[n % rows.length],
    by unfold pickRow; exact List.getElem?_eq_getElem hm, List.getElem_mem hm⟩

/-- The random-row query returns nothing only on an empty eligible set. -/
theorem pickRow_eq_none {α : Type} {rows : List α} {n : Nat}
    (h : pickRow rows n = none) : rows = [] := by
  by_contra hne
  obtain ⟨a, ha, -⟩ := pickRow_some rows n hne
  rw [h] at ha
  exact Option.noConfusion ha

/-- C7: the connection accessor creates a handle on first use and returns the
same handle on every later call; `reconnect` closes best-effort (its result
does not depend on whether the close raises, so a close error can never mask
the triggering failure), discards the handle, and the next access establishes
a fresh handle distinct from the discarded one.  The hypothesis is the handle
counter invariant every reachable `ConnState` satisfies. -/
theorem connection_manager_spec (s : ConnState)
    (hinv : ∀ c, s.conn = some c → c < s.nextHandle) : connectionContract s := by
  cases hc : s.conn with
  | some c =>
      have hlt := hinv c hc
      refine ⟨?_, fun b1 b2 => rfl, fun b => rfl, fun b => ?_⟩
      · simp [connection, hc]
      · simp [connection, reconnect, hc]
        omega
  | none =>
      refine ⟨?_, fun b1 b2 => rfl, fun b => rfl, fun b => ?_⟩
      · simp [connection, hc]
      · simp [connection, reconnect, hc]

/-- C7 witness: the contract at the initial state of a fresh generator. -/
theorem connection_manager_spec_witness : connectionContract ⟨none, 0⟩ :=
  connection_manager_spec ⟨none, 0⟩ (fun c h => nomatch h)

/-- Every finite run of the generator loop completes all scheduled iterations. -/
theorem crudIterations_count (inputs : List IterInput) :
    ∀ (g : LoadGenerator) (db : DB),
      (crudIterations g db inputs).2.2 = inputs.length := by
  induction inputs with
  | nil => intro g db; rfl
  | cons inp rest ih =>
      intro g db
      simp [crudIterations, ih]

/-- C3: a driver failure inside the selected operation is caught at the
scheduler boundary: `execute_random_operation` returns normally, logs exactly
one `operation_failed` warning carrying the operation name and the database
identifier, invalidates the connection via `reconnect`, and a loop run whose
first iteration fails still completes every following scheduled iteration. -/
theorem scheduler_boundary_spec (g : LoadGenerator) (db : DB) (choice now : Nat)
    (r : RandStream) (msg : String) (b : Bool) (dbAfter : DB) (op : OpName)
    (hsel : selectOp choice = some op) :
    opFailureHandled g db choice now r msg b dbAfter op := by
  refine ⟨?_, rfl, ?_⟩
  · simp [execute_random_operation, hsel]
  · intro inputs
    simp [crudIterations, execute_random_operation, hsel, crudIterations_count]

/-- C3 witness: the failure handling at draw 1 on a fresh generator. -/
theorem scheduler_boundary_spec_witness :
    opFailureHandled sampleGen emptyDB 1 0 sampleRand "connection reset" true
      emptyDB OpName.insert_customer_with_order :=
  scheduler_boundary_spec sampleGen emptyDB 1 0 sampleRand "connection reset" true
    emptyDB OpName.insert_customer_with_order (by decide)

/-- C10: the progression lookup is total over status strings — any status
outside {Pending, Processing, Shipped} maps to Completed by the dictionary
default rather than raising — and every order returned by the eligibility
query receives exactly one status update: the table keeps its length and the
rows of the selected order carry `status_progression` of the old status. -/
theorem advance_status_total_spec (s dbName : String) (r : RandStream)
    (db : DB) (o : Order) :
    (s ∉ statusChoices → status_progression s = "Completed") ∧
    (pickRow (eligibleOrders db) (r.nat 0) = some o →
      (update_order_status dbName r db).1.orders.length = db.orders.length ∧
      ∀ p ∈ (update_order_status dbName r db).1.orders,
        p.orderId = o.orderId → p.status = status_progression o.status) := by
  constructor
  · intro hs
    simp only [statusChoices, List.mem_cons, List.not_mem_nil, or_false,
      not_or] at hs
    obtain ⟨h1, h2, h3⟩ := hs
    simp [status_progression, h1, h2, h3]
  · intro hpick
    constructor
    · simp [update_order_status, hpick]
    · intro p hp hpid
      simp only [update_order_status, hpick, List.mem_map] at hp
      obtain ⟨q, hq, hqp⟩ := hp
      by_cases hid : q.orderId = o.orderId
      · rw [if_pos hid] at hqp
        rw [← hqp]
      · rw [if_neg hid] at hqp
        subst hqp
        exact absurd hpid hid

/-- C6: for each of advance-order-status, update-customer-contact and
delete-cancelable-order-item, an empty eligible set means the operation
returns the database unchanged and emits no log record at all — and in every
case these operations only ever emit info-level records, never a failure
record. -/
theorem precondition_miss_spec (dbName : String) (now : Nat) (r : RandStream)
    (db : DB) :
    (eligibleOrders db = [] → update_order_status dbName r db = (db, [])) ∧
    (db.customers = [] → update_customer dbName now r db = (db, [])) ∧
    (cancelableItems db = [] → delete_order_item dbName r db = (db, [])) ∧
    (∀ e ∈ (update_order_status dbName r db).2, e.level = LogLevel.info) ∧
    (∀ e ∈ (update_customer dbName now r db).2, e.level = LogLevel.info) ∧
    (∀ e ∈ (delete_order_item dbName r db).2, e.level = LogLevel.info) := by
  refine ⟨?_, ?_, ?_, ?_, ?_, ?_⟩
  · intro h
    simp [update_order_status, h, pickRow]
  · intro h
    simp [update_customer, h, pickRow]
  · intro h
    simp [delete_order_item, h, pickRow]
  · intro e he
    cases hp : pickRow (eligibleOrders db) (r.nat 0) <;>
      simp [update_order_status, hp] at he <;> simp [he]
  · intro e he
    cases hp : pickRow db.customers (r.nat 0) <;>
      simp [update_customer, hp] at he <;> simp [he]
  · intro e he
    cases hp : pickRow (cancelableItems db) (r.nat 0) <;>
      simp [delete_order_item, hp] at he <;> simp [he]

/-- C2: `advance-order-status` moves the acted-on order exactly one step along
the fixed progression — Pending to Processing, Processing to Shipped, Shipped
to Completed, each step raising `statusIdx` by exactly one (never skipping,
never regressing) — a Completed order is never in the eligible set, the
selected order always comes from the eligible set, every row of the updated
table is either the acted-on row carrying the advanced status or an untouched
row of the old table, and with no eligible order the operation writes nothing
and logs nothing. -/
theorem advance_order_status_spec (dbName : String) (r : RandStream) (db : DB) :
    (status_progression "Pending" = "Processing" ∧
     status_progression "Processing" = "Shipped" ∧
     status_progression "Shipped" = "Completed") ∧
    (∀ s ∈ statusChoices, statusIdx (status_progression s) = statusIdx s + 1) ∧
    (∀ o ∈ eligibleOrders db, o.status ≠ "Completed") ∧
    (∀ o, pickRow (eligibleOrders db) (r.nat 0) = some o →
      o ∈ db.orders ∧ o.status ≠ "Completed" ∧
      ∀ p ∈ (update_order_status dbName r db).1.orders,
        (p.orderId = o.orderId → p.status = status_progression o.status) ∧
        (p.orderId ≠ o.orderId → p ∈ db.orders)) ∧
    (pickRow (eligibleOrders db) (r.nat 0) = none →
      update_order_status dbName r db = (db, [])) := by
  refine ⟨by decide, ?_, ?_, ?_, ?_⟩
  · intro s hs
    simp only [statusChoices, List.mem_cons, List.not_mem_nil, or_false] at hs
    rcases hs with rfl | rfl | rfl <;> decide
  · intro o ho
    have hpred := (List.mem_filter.mp ho).2
    simpa using hpred
  · intro o hpick
    have hoe : o ∈ eligibleOrders db := pickRow_mem hpick
    refine ⟨(List.mem_filter.mp hoe).1, by simpa using (List.mem_filter.mp hoe).2, ?_⟩
    intro p hp
    simp only [update_order_status, hpick, List.mem_map] at hp
    obtain ⟨q, hq, hqp⟩ := hp
    by_cases hid : q.orderId = o.orderId
    · rw [if_pos hid] at hqp
      constructor
      · intro _
        rw [← hqp]
      · intro hne
        exact absurd (by rw [← hqp]; exact hid) hne
    · rw [if_neg hid] at hqp
      subst hqp
      exact ⟨fun heq => absurd heq hid, fun _ => hq⟩
  · intro hpick
    simp [update_order_status, hpick]

/-- C4: one successful `insert_customer_with_order` run, from any database
state, adds exactly one customer row, exactly one order row referencing that
customer with an initial status from {Pending, Processing, Shipped}, and 1-3
order item rows referencing that order, each with quantity in [1, 5] and unit
price in [5.00, 100.00]. -/
theorem create_customer_with_order_spec (dbName : String) (now : Nat)
    (r : RandStream) (db : DB) :
    insertCustomerPost db (insert_customer_with_order dbName now r db).1 := by
  refine ⟨{ customerId := db.nextCustomerId, firstName := r.str 0,
            lastName := r.str 1, email := r.str 2, createdAt := now,
            modifiedAt := now },
          { orderId := db.nextOrderId, customerId := db.nextCustomerId,
            orderDate := now, totalAmountCents := randint 1000 50000 (r.nat 0),
            status := statusChoices.getD (r.nat 1 % statusChoices.length) "Pending" },
          (List.range (randint 1 3 (r.nat 2))).map (fun i =>
            { orderItemId := db.nextOrderItemId + i, orderId := db.nextOrderId,
              productName := r.str (3 + 2 * i) ++ " " ++ r.str (4 + 2 * i),
              quantity := randint 1 5 (r.nat (3 + 2 * i)),
              unitPriceCents := randint 500 10000 (r.nat (4 + 2 * i)) }),
          rfl, rfl, rfl, rfl, ?_, ?_, ?_, ?_⟩
  · have hlen : 0 < statusChoices.length := by decide
    have h3 := Nat.mod_lt (r.nat 1) hlen
    rw [List.getD_eq_getElem statusChoices "Pending" h3]
    exact List.getElem_mem h3
  · simpa using randint_lo 1 3 (r.nat 2)
  · simpa using randint_hi 1 3 (r.nat 2) (by omega)
  · intro it hit
    simp only [List.mem_map, List.mem_range] at hit
    obtain ⟨i, hi, rfl⟩ := hit
    exact ⟨rfl, randint_lo 1 5 _, randint_hi 1 5 _ (by omega),
      randint_lo 500 10000 _, randint_hi 500 10000 _ (by omega)⟩

/-- C5: `add-order-to-existing-customer` with at least one customer picks an
existing customer and inserts one Pending order plus 1-2 items (quantity 1-3,
unit price 5.00-50.00) referencing it; with zero customers it performs exactly
the full `insert_customer_with_order` fallback (so it never raises on the
empty case); and in every case each newly inserted order references a customer
present in the resulting state. -/
theorem add_order_for_existing_spec (dbName : String) (now : Nat)
    (r : RandStream) (db : DB) : addOrderPost dbName now r db := by
  refine ⟨?_, ?_, ?_⟩
  · intro h
    simp [insert_order_for_existing, h, pickRow]
  · intro h
    obtain ⟨cust, hpick, hmem⟩ := pickRow_some db.customers (r.nat 0) h
    refine ⟨cust,
      { orderId := db.nextOrderId, customerId := cust.customerId,
        orderDate := now, totalAmountCents := randint 1000 50000 (r.nat 1),
        status := "Pending" },
      (List.range (randint 1 2 (r.nat 2))).map (fun i =>
        { orderItemId := db.nextOrderItemId + i, orderId := db.nextOrderId,
          productName := r.str (1 + 2 * i) ++ " " ++ r.str (2 + 2 * i),
          quantity := randint 1 3 (r.nat (3 + 2 * i)),
          unitPriceCents := randint 500 5000 (r.nat (4 + 2 * i)) }),
      hmem, ?_, ?_, ?_, rfl, rfl, ?_, ?_, ?_⟩
    · simp [insert_order_for_existing, hpick]
    · simp [insert_order_for_existing, hpick]
    · simp [insert_order_for_existing, hpick]
    · simpa using randint_lo 1 2 (r.nat 2)
    · simpa using randint_hi 1 2 (r.nat 2) (by omega)
    · intro it hit
      simp only [List.mem_map, List.mem_range] at hit
      obtain ⟨i, hi, rfl⟩ := hit
      exact ⟨rfl, randint_lo 1 3 _, randint_hi 1 3 _ (by omega),
        randint_lo 500 5000 _, randint_hi 500 5000 _ (by omega)⟩
  · intro o ho hnew
    cases hpick : pickRow db.customers (r.nat 0) with
    | some cust =>
        have hmem := pickRow_mem hpick
        simp only [insert_order_for_existing, hpick] at ho ⊢
        rcases List.mem_append.mp ho with hin | hsingle
        · exact absurd hin hnew
        · obtain rfl := List.mem_singleton.mp hsingle
          exact ⟨cust, hmem, rfl⟩
    | none =>
        simp only [insert_order_for_existing, hpick,
          insert_customer_with_order] at ho ⊢
        rcases List.mem_append.mp ho with hin | hsingle
        · exact absurd hin hnew
        · obtain rfl := List.mem_singleton.mp hsingle
          exact ⟨{ customerId := db.nextCustomerId, firstName := r.str 0,
                   lastName := r.str 1, email := r.str 2, createdAt := now,
                   modifiedAt := now },
                 List.mem_append.mpr (Or.inr (by simp)), rfl⟩

/-- All events emitted by the migration phase are migration-phase events. -/
theorem run_migrations_events (applyMig : String → Except String Unit) :
    ∀ dbs : List String, ∀ e ∈ (run_migrations dbs applyMig).1,
      e.isMigrationPhase = true := by
  intro dbs
  induction dbs with
  | nil =>
      intro e he
      simp [run_migrations] at he
  | cons d rest ih =>
      intro e he
      cases hd : applyMig d with
      | ok u =>
          simp only [run_migrations, hd, List.mem_cons] at he
          rcases he with rfl | rfl | he
          · rfl
          · rfl
          · exact ih e he
      | error err =>
          simp only [run_migrations, hd, List.mem_cons, List.not_mem_nil,
            or_false] at he
          rcases he with rfl | rfl <;> rfl

/-- A migration-phase event is not a workload-phase event. -/
theorem migPhase_not_workPhase (e : MainEvent) (h : e.isMigrationPhase = true) :
    e.isWorkloadPhase = false := by
  cases e <;> simp_all [MainEvent.isMigrationPhase, MainEvent.isWorkloadPhase]

/-- A migration-phase event is not a workload operation. -/
theorem migPhase_not_workOp (e : MainEvent) (h : e.isMigrationPhase = true) :
    e.isWorkloadOp = false := by
  cases e <;> simp_all [MainEvent.isMigrationPhase, MainEvent.isWorkloadOp]

/-- Scanning a list without migration-phase events never violates the phase
order, whatever has been seen before. -/
theorem phaseOrdered_of_no_mig (l : List MainEvent) :
    ∀ b : Bool, (∀ e ∈ l, e.isMigrationPhase = false) →
      phaseOrdered b l = true := by
  induction l with
  | nil =>
      intro b _
      rfl
  | cons e rest ih =>
      intro b h
      have he := h e (List.mem_cons_self e rest)
      simp [phaseOrdered, he]
      exact ih _ (fun x hx => h x (List.mem_cons_of_mem e hx))

/-- A workload-free prefix followed by a migration-free suffix is
phase-ordered. -/
theorem phaseOrdered_append (l1 l2 : List MainEvent) :
    (∀ e ∈ l1, e.isWorkloadPhase = false) →
    (∀ e ∈ l2, e.isMigrationPhase = false) →
    phaseOrdered false (l1 ++ l2) = true := by
  induction l1 with
  | nil =>
      intro _ h2
      simpa using phaseOrdered_of_no_mig l2 false h2
  | cons e rest ih =>
      intro h1 h2
      have hw := h1 e (List.mem_cons_self e rest)
      simp only [List.cons_append, phaseOrdered, hw, Bool.and_false,
        Bool.or_false]
      simp only [Bool.false_eq_true, if_false]
      exact ih (fun x hx => h1 x (List.mem_cons_of_mem e hx)) h2

/-- Every event of the crud loop is a workload operation. -/
theorem crudLoopEvents_shape (dbs : List String) (iters : Nat) :
    ∀ e ∈ crudLoopEvents dbs iters, ∃ d, e = MainEvent.workload_op d := by
  intro e he
  simp only [crudLoopEvents, List.mem_flatMap, List.mem_map, List.mem_range] at he
  obtain ⟨i, hi, d, hd, rfl⟩ := he
  exact ⟨d, rfl⟩

/-- The workload-phase tail of a successful `main` run contains no
migration-phase event. -/
theorem loopPhase_no_mig (dbs : List String) (iters n : Nat) (fin : MainEvent)
    (hfin : fin.isMigrationPhase = false) :
    ∀ e ∈ MainEvent.generators_created n :: MainEvent.starting_crud_loop ::
        (crudLoopEvents dbs iters ++ [fin]), e.isMigrationPhase = false := by
  intro e he
  simp only [List.mem_cons, List.mem_append, List.not_mem_nil, or_false] at he
  rcases he with rfl | rfl | he | rfl
  · rfl
  · rfl
  · obtain ⟨d, rfl⟩ := crudLoopEvents_shape dbs iters e he
    rfl
  · exact hfin

/-- When every per-database application succeeds, the migration phase walks
the configured databases once, in order, completing each. -/
theorem run_migrations_all_ok (applyMig : String → Except String Unit) :
    ∀ dbs : List String, (∀ d ∈ dbs, applyMig d = Except.ok ()) →
      run_migrations dbs applyMig =
        (dbs.flatMap (fun d => [MainEvent.running_migrations d,
                                MainEvent.migrations_complete d]),
         Except.ok ()) := by
  intro dbs
  induction dbs with
  | nil =>
      intro _
      rfl
  | cons d rest ih =>
      intro hok
      have hd : applyMig d = Except.ok () := hok d (List.mem_cons_self d rest)
      have ht := ih (fun x hx => hok x (List.mem_cons_of_mem d hx))
      simp [run_migrations, hd, ht]

/-- C8: in every `main` run the migration phase strictly precedes every
workload-phase event (generator construction and all workload operations);
the exit status is 0 exactly when the migrations succeeded and the loop ended
in a cooperative shutdown, and 1 otherwise; when the migration phase fails no
workload operation appears anywhere in the run and the process exits 1; and
when every per-database application succeeds the migration phase visits all
configured databases exactly once, sequentially, in order. -/
theorem migration_before_workload_spec (dbs : List String)
    (applyMig : String → Except String Unit) (iters : Nat) (intr : Bool) :
    phaseOrdered false (mainRun dbs applyMig iters intr).1 = true ∧
    (mainRun dbs applyMig iters intr).2 =
      (if migOkB (run_migrations dbs applyMig).2 && intr then 0 else 1) ∧
    (migOkB (run_migrations dbs applyMig).2 = false →
      ((mainRun dbs applyMig iters intr).1.all (fun e => !e.isWorkloadOp)) = true ∧
      (mainRun dbs applyMig iters intr).2 = 1) ∧
    ((∀ d ∈ dbs, applyMig d = Except.ok ()) →
      run_migrations dbs applyMig =
        (dbs.flatMap (fun d => [MainEvent.running_migrations d,
                                MainEvent.migrations_complete d]),
         Except.ok ())) := by
  refine ⟨?_, ?_, ?_, run_migrations_all_ok applyMig dbs⟩
  · rcases hmig : run_migrations dbs applyMig with ⟨evs, res⟩
    have hmigev : ∀ e ∈ evs, MainEvent.isMigrationPhase e = true := by
      have h := run_migrations_events applyMig dbs
      rw [hmig] at h
      exact h
    have hnw : ∀ e ∈ evs, MainEvent.isWorkloadPhase e = false :=
      fun e he => migPhase_not_workPhase e (hmigev e he)
    cases res with
    | error err =>
        simp only [mainRun, hmig]
        simpa using phaseOrdered_append evs [] hnw (by intro e he; simp at he)
    | ok u =>
        simp only [mainRun, hmig, List.append_assoc, List.cons_append,
          List.nil_append]
        exact phaseOrdered_append evs _ hnw
          (loopPhase_no_mig dbs iters dbs.length _ (by cases intr <;> rfl))
  · rcases hmig : run_migrations dbs applyMig with ⟨evs, res⟩
    cases res with
    | error err => simp [mainRun, hmig, migOkB]
    | ok u => cases intr <;> simp [mainRun, hmig, migOkB]
  · intro hfail
    rcases hmig : run_migrations dbs applyMig with ⟨evs, res⟩
    rw [hmig] at hfail
    cases res with
    | ok u => simp [migOkB] at hfail
    | error err =>
        have hmigev : ∀ e ∈ evs, MainEvent.isMigrationPhase e = true := by
          have h := run_migrations_events applyMig dbs
          rw [hmig] at h
          exact h
        constructor
        · simp only [mainRun, hmig, List.all_eq_true]
          intro e he
          simp [migPhase_not_workOp e (hmigev e he)]
        · simp [mainRun, hmig]

end Loadgen
